import Mathlib

/-!
Shallow embedding of the coordinate-plane exercise game (CoordinateCanvas
component, game constants, and the App game-state controller), together with
theorems settling the specification claims about it.

Conventions of the embedding:
* JavaScript numbers are modelled as exact rationals (all arithmetic in the
  program is +, -, *, / on plain numbers; the only square root occurs in a
  comparison that is embedded in its equivalent squared form, see
  handleCanvasClick).
* JS Math.round is modelled by mathRound (floor of x + 1/2, which matches
  Math.round on every input, negative halves included).
* React state updates are modelled as pure state-transition functions on a
  GameState record; the setTimeout callback of a successful click is modelled
  as an explicit pending-timer task whose closure capture of the current
  config is recorded in the task.
* Presentation-only string fields of the config (name, description,
  themeColor) and the timestamp field of lastResult (an external clock value)
  are omitted; they play no role in any claim.
-/

namespace CoordGame

/-- A point, in logical or pixel units: the shape of the Point type of the
missing types module (x and y are JS numbers, modelled as rationals). -/
@[ext]
structure Point where
  x : ℚ
  y : ℚ
deriving DecidableEq

/-- Modelled from the spec: the four difficulty tiers declared by the
DifficultyLevel enum of the missing types module (the enum member carrying
the id string INTRO is the introductory tier, per the aspect-ratio test in
the canvas component and the mode table of constants). -/
inductive DifficultyLevel where
  | Intro
  | Advanced
  | Challenge
  | Hell
deriving DecidableEq

/-- Origin placement of a mode (the originPos field: center or bottom-left). -/
inductive OriginPos where
  | center
  | bottomLeft
deriving DecidableEq

/-- Per-difficulty configuration record (the GameConfig type), restricted to
its numeric and structural fields. -/
structure GameConfig where
  id : DifficultyLevel
  xRange : ℚ × ℚ
  yRange : ℚ × ℚ
  gridStep : ℚ
  majorGridStep : Option ℚ := none
  labelStep : ℚ
  targetStep : ℚ
  tolerance : ℚ
  originPos : OriginPos
deriving DecidableEq

/-- The constant UNLOCK_THRESHOLD = 20 from constants. -/
def UNLOCK_THRESHOLD : ℕ := 20

/-- The GAME_MODES table from constants (numeric fields verbatim). -/
def GAME_MODES : DifficultyLevel → GameConfig
  | DifficultyLevel.Intro =>
    { id := DifficultyLevel.Intro
      xRange := (0, 10)
      yRange := (0, 10)
      gridStep := 1
      labelStep := 1
      targetStep := 1
      tolerance := 0.4
      originPos := OriginPos.bottomLeft }
  | DifficultyLevel.Advanced =>
    { id := DifficultyLevel.Advanced
      xRange := (-10, 10)
      yRange := (-10, 10)
      gridStep := 1
      labelStep := 2
      targetStep := 1
      tolerance := 0.4
      originPos := OriginPos.center }
  | DifficultyLevel.Challenge =>
    { id := DifficultyLevel.Challenge
      xRange := (-50, 50)
      yRange := (-50, 50)
      gridStep := 5
      majorGridStep := some 10
      labelStep := 10
      targetStep := 5
      tolerance := 3.5
      originPos := OriginPos.center }
  | DifficultyLevel.Hell =>
    { id := DifficultyLevel.Hell
      xRange := (-240, 240)
      yRange := (-180, 180)
      gridStep := 20
      majorGridStep := some 100
      labelStep := 100
      targetStep := 10
      tolerance := 15
      originPos := OriginPos.center }

/-- Canvas dimensions held in the component state. -/
structure Dimensions where
  width : ℚ
  height : ℚ
deriving DecidableEq

/-- The updateSize resize handler of the canvas component: the container
clientWidth is used as the width unmodified, and the height is derived from
a 1:1 aspect ratio in the Intro mode and 4:3 otherwise. -/
def updateSize (id : DifficultyLevel) (clientWidth : ℚ) : Dimensions :=
  let aspectRatio : ℚ := if id = DifficultyLevel.Intro then 1 else 4 / 3
  { width := clientWidth, height := clientWidth / aspectRatio }

/-- The fixed inset margin (the local constant padding = 40 of toPixel and
toLogical). -/
def padding : ℚ := 40

/-- Drawable width, the divisor drawW = width - padding * 2 of the mapper. -/
def drawW (d : Dimensions) : ℚ := d.width - padding * 2

/-- Drawable height, the divisor drawH = height - padding * 2 of the mapper. -/
def drawH (d : Dimensions) : ℚ := d.height - padding * 2

/-- The toPixel mapper: logical coordinate to canvas pixel (canvas y is
inverted). -/
def toPixel (config : GameConfig) (d : Dimensions) (p : Point) : Point :=
  let xSpan := config.xRange.2 - config.xRange.1
  let ySpan := config.yRange.2 - config.yRange.1
  { x := padding + ((p.x - config.xRange.1) / xSpan) * drawW d
    y := d.height - padding - ((p.y - config.yRange.1) / ySpan) * drawH d }

/-- JS Math.round: round half towards positive infinity. -/
def mathRound (q : ℚ) : ℤ := ⌊q + 1 / 2⌋

/-- The unrounded intermediate values lx, ly computed inside toLogical
before Math.round is applied (the algebraic inverse of toPixel). -/
def toLogicalRaw (config : GameConfig) (d : Dimensions) (p : Point) : Point :=
  { x := ((p.x - padding) / drawW d) * (config.xRange.2 - config.xRange.1) + config.xRange.1
    y := ((d.height - padding - p.y) / drawH d) * (config.yRange.2 - config.yRange.1)
           + config.yRange.1 }

/-- The toLogical mapper: canvas pixel to logical coordinate. The source
returns Math.round(lx) and Math.round(ly). -/
def toLogical (config : GameConfig) (d : Dimensions) (p : Point) : Point :=
  { x := (mathRound ((toLogicalRaw config d p).x) : ℚ)
    y := (mathRound ((toLogicalRaw config d p).y) : ℚ) }

/-- The handleClick event handler of the canvas component: the payload it
passes to the onClick callback (and hence to the click evaluation of the
controller) is the output of toLogical on the pointer pixel position. -/
def handleClick (config : GameConfig) (d : Dimensions) (pixel : Point) : Point :=
  toLogical config d pixel

/-- The transient lastResult record of the App state. The timestamp field
(an external Date.now() value) is omitted. -/
structure LastResult where
  success : Bool
  clickPos : Point
deriving DecidableEq

/-- The distinct feedback strings the App writes into its feedback state,
as an enumeration: the initial prompt, the new-game prompt of the
mode-change effect, the success message, the next-target prompt written by
the delayed callback, and the miss message, which interpolates the
Math.round-ed click coordinates. -/
inductive Feedback where
  | initial
  | newGame
  | successHit
  | nextTarget
  | miss (x y : ℤ)
deriving DecidableEq

/-- A pending setTimeout task scheduled by a successful click: its delay in
milliseconds and the GameConfig captured by the callback closure at
scheduling time (the callback calls the generateNewTarget of the render in
which the click happened, whose config it closes over). -/
structure TimerTask where
  delayMs : ℕ
  capturedConfig : GameConfig
deriving DecidableEq

/-- The App component state: current mode, current target, session score,
feedback text, last click result, the persisted per-mode progress counts,
and the queue of pending setTimeout tasks (fired in FIFO order). -/
structure GameState where
  mode : DifficultyLevel
  target : Point
  score : ℕ
  feedback : Feedback
  lastResult : Option LastResult
  progress : DifficultyLevel → ℕ
  pendingTimers : List TimerTask

/-- The getRandomCoord helper of App, with the Math.random() sample passed
in as the argument r (a real call satisfies 0 ≤ r < 1):
steps = Math.floor((max - min) / step), randomStep = Math.floor(r * (steps + 1)),
result = min + randomStep * step. -/
def getRandomCoord (min max step r : ℚ) : ℚ :=
  let steps : ℤ := ⌊(max - min) / step⌋
  let randomStep : ℤ := ⌊r * ((steps : ℚ) + 1)⌋
  min + (randomStep : ℚ) * step

/-- The generateNewTarget helper of App, with the two Math.random() samples
passed in as rx and ry. -/
def generateNewTarget (config : GameConfig) (rx ry : ℚ) : Point :=
  { x := getRandomCoord config.xRange.1 config.xRange.2 config.targetStep rx
    y := getRandomCoord config.yRange.1 config.yRange.2 config.targetStep ry }

/-- The handleCanvasClick handler of App. The source compares
Math.sqrt(dx*dx + dy*dy) with config.tolerance; this embedding uses the
equivalent squared comparison (both sides are nonnegative), and the claim
theorem about this handler proves the equivalence with the square-root
form explicitly. On success: score + 1, progress of the current mode + 1,
success feedback, lastResult snapped to the target, and a 1500 ms timer is
scheduled (the confetti call is an external fire-and-forget effect). On
failure: miss feedback carrying the Math.round-ed click coordinates and
lastResult at the actual click; nothing else changes. -/
def handleCanvasClick (s : GameState) (clickPos : Point) : GameState :=
  let config := GAME_MODES s.mode
  let dx := clickPos.x - s.target.x
  let dy := clickPos.y - s.target.y
  if dx * dx + dy * dy ≤ config.tolerance * config.tolerance then
    { s with
      score := s.score + 1
      progress := fun m => if m = s.mode then s.progress s.mode + 1 else s.progress m
      feedback := Feedback.successHit
      lastResult := some { success := true, clickPos := s.target }
      pendingTimers := s.pendingTimers ++ [{ delayMs := 1500, capturedConfig := config }] }
  else
    { s with
      feedback := Feedback.miss (mathRound clickPos.x) (mathRound clickPos.y)
      lastResult := some { success := false, clickPos := clickPos } }

/-- Firing the callback of one scheduled timer task on the current state:
the callback regenerates the target through the generateNewTarget closure it
captured (hence with the captured config), clears lastResult, and writes the
next-target prompt. -/
def fireTimer (s : GameState) (t : TimerTask) (rx ry : ℚ) : GameState :=
  { s with
    target := generateNewTarget t.capturedConfig rx ry
    lastResult := none
    feedback := Feedback.nextTarget }

/-- Firing the oldest pending timer, if any (setTimeout callbacks with equal
delays run in scheduling order). -/
def runNextTimer (s : GameState) (rx ry : ℚ) : GameState :=
  match s.pendingTimers with
  | [] => s
  | t :: rest => { fireTimer s t rx ry with pendingTimers := rest }

/-- The getLockStatus helper of App, restricted to its isLocked component
(the reqText component is a presentation string). The source ends with an
unreachable locked fallback after the four explicit cases. -/
def getLockStatus (progress : DifficultyLevel → ℕ) (m : DifficultyLevel) : Bool :=
  match m with
  | DifficultyLevel.Intro => false
  | DifficultyLevel.Advanced => decide (progress DifficultyLevel.Intro < UNLOCK_THRESHOLD)
  | DifficultyLevel.Challenge => decide (progress DifficultyLevel.Advanced < UNLOCK_THRESHOLD)
  | DifficultyLevel.Hell => decide (progress DifficultyLevel.Challenge < UNLOCK_THRESHOLD)

/-- The mode-change effect of App (it runs whenever setMode changes the
mode): regenerate the target from the new mode's config, reset the session
score, clear lastResult, and write the new-game prompt. Persisted progress
and the pending-timer queue are untouched (the effect performs no
clearTimeout). -/
def applyModeSwitch (s : GameState) (m : DifficultyLevel) (rx ry : ℚ) : GameState :=
  { s with
    mode := m
    target := generateNewTarget (GAME_MODES m) rx ry
    score := 0
    lastResult := none
    feedback := Feedback.newGame }

/-- A mode-switch attempt through a mode button: the button is disabled and
its onClick guarded by the lock status, so a locked tier leaves the state
unchanged and an unlocked one runs the mode-change effect. -/
def attemptModeSwitch (s : GameState) (m : DifficultyLevel) (rx ry : ℚ) : GameState :=
  if getLockStatus s.progress m then s else applyModeSwitch s m rx ry

/-- Modelled from the spec: the values JSON.parse can return (a single flat
key-value blob is all that is ever stored). Object keys are restricted to
the four difficulty id strings declared by the enum of the missing types
module, represented here by the enum itself. -/
inductive Json where
  | null
  | bool (b : Bool)
  | num (q : ℚ)
  | arr (elems : List Json)
  | obj (fields : List (DifficultyLevel × Json))

/-- The outcome of reading the progress key at startup, modelling the
external localStorage.getItem plus JSON.parse pair: absent when getItem
yields null (or a falsy empty string), unparseable when JSON.parse throws,
and parsed v when it succeeds with value v. -/
inductive StoredData where
  | absent
  | unparseable
  | parsed (v : Json)

/-- The all-zero default progress object built by the useState initializer. -/
def zeroProgress : Json :=
  Json.obj
    [(DifficultyLevel.Intro, Json.num 0), (DifficultyLevel.Advanced, Json.num 0),
      (DifficultyLevel.Challenge, Json.num 0), (DifficultyLevel.Hell, Json.num 0)]

/-- The progress useState initializer of App: a present value is parsed and
returned as-is on parse success; a parse error is only logged and falls
through to the zero default, as does an absent value. No shape validation
is performed on a successfully parsed value. -/
def loadProgress : StoredData → Json
  | StoredData.absent => zeroProgress
  | StoredData.unparseable => zeroProgress
  | StoredData.parsed v => v

/-- First field of an object with the given key, if any. -/
def lookupField : List (DifficultyLevel × Json) → DifficultyLevel → Option Json
  | [], _ => none
  | (k, v) :: rest, d => if k = d then some v else lookupField rest d

/-- Whether an optional field holds a nonnegative integer number. -/
def isNonNegInt : Option Json → Bool
  | some (Json.num q) => decide (0 ≤ q ∧ q.den = 1)
  | _ => false

/-- Whether a JSON value is a progress mapping: an object giving every
difficulty id a nonnegative integer count. -/
def isProgressMapping : Json → Bool
  | Json.obj fields =>
      isNonNegInt (lookupField fields DifficultyLevel.Intro)
        && isNonNegInt (lookupField fields DifficultyLevel.Advanced)
        && isNonNegInt (lookupField fields DifficultyLevel.Challenge)
        && isNonNegInt (lookupField fields DifficultyLevel.Hell)
  | _ => false

/-- The initial App state: mode Intro, target (3, 5), score 0, the initial
prompt, no result, and no pending timers, over a given progress mapping. -/
def initState (progress : DifficultyLevel → ℕ) : GameState :=
  { mode := DifficultyLevel.Intro
    target := { x := 3, y := 5 }
    score := 0
    feedback := Feedback.initial
    lastResult := none
    progress := progress
    pendingTimers := [] }

/-- A concrete demonstration state used by witnesses: the initial state over
all-zero progress. -/
def demoState : GameState := initState fun _ => 0

/-- The previous (immediately easier) tier of each tier, none for Intro. -/
def prevTier : DifficultyLevel → Option DifficultyLevel
  | DifficultyLevel.Intro => none
  | DifficultyLevel.Advanced => some DifficultyLevel.Intro
  | DifficultyLevel.Challenge => some DifficultyLevel.Advanced
  | DifficultyLevel.Hell => some DifficultyLevel.Challenge

/-! Helper lemmas. -/

/-- Evaluation rule for the floor of a rational. -/
lemma qfloor_eq (q : ℚ) (z : ℤ) (h1 : (z : ℚ) ≤ q) (h2 : q < z + 1) : ⌊q⌋ = z :=
  Int.floor_eq_iff.mpr ⟨h1, by linarith⟩

/-- Evaluation rule for Math.round. -/
lemma mathRound_eq (q : ℚ) (z : ℤ) (h1 : (z : ℚ) ≤ q + 1 / 2) (h2 : q + 1 / 2 < z + 1) :
    mathRound q = z :=
  qfloor_eq (q + 1 / 2) z h1 h2

/-- Math.round of an integer is that integer. -/
lemma mathRound_intCast (n : ℤ) : mathRound (n : ℚ) = n :=
  mathRound_eq (n : ℚ) n (by linarith) (by linarith)

/-- Math.round maps a value between two integers between those integers. -/
lemma mathRound_mem (a b : ℤ) (q : ℚ) (h1 : (a : ℚ) ≤ q) (h2 : q ≤ (b : ℚ)) :
    (a : ℚ) ≤ (mathRound q : ℚ) ∧ (mathRound q : ℚ) ≤ (b : ℚ) := by
  constructor
  · exact_mod_cast Int.le_floor.mpr (by linarith)
  · exact_mod_cast Int.le_of_lt_add_one (Int.floor_lt.mpr (by push_cast; linarith))

/-- Every tolerance in the mode table is positive. -/
lemma tolerance_pos (m : DifficultyLevel) : 0 < (GAME_MODES m).tolerance := by
  cases m <;> norm_num [GAME_MODES]

/-- Comparing a Euclidean distance with a nonnegative tolerance is the same
as comparing the squared distance with the squared tolerance. -/
lemma sqrt_le_tol_iff (d2 tol : ℚ) (htol : 0 ≤ tol) :
    Real.sqrt (d2 : ℝ) ≤ (tol : ℝ) ↔ d2 ≤ tol * tol := by
  rw [Real.sqrt_le_left (by exact_mod_cast htol), sq]
  constructor <;> intro h <;> exact_mod_cast h

/-- Membership of the affine inverse map in its target interval is exactly
membership of the argument in the source interval. -/
lemma affine_inv_mem_iff (x0 x1 w t : ℚ) (hs : x0 < x1) (hw : 0 < w) :
    (x0 ≤ (t / w) * (x1 - x0) + x0 ∧ (t / w) * (x1 - x0) + x0 ≤ x1) ↔
      (0 ≤ t ∧ t ≤ w) := by
  have hs2 : 0 < x1 - x0 := by linarith
  have e1 : x0 ≤ (t / w) * (x1 - x0) + x0 ↔ 0 ≤ t := by
    rw [le_add_iff_nonneg_left]
    rw [mul_nonneg_iff_of_pos_right hs2]
    rw [le_div_iff₀ hw, zero_mul]
  have e2 : (t / w) * (x1 - x0) + x0 ≤ x1 ↔ t ≤ w := by
    constructor
    · intro h
      have h2 : (t / w) * (x1 - x0) ≤ x1 - x0 := by linarith
      have h3 : t / w ≤ 1 := by
        have := (mul_le_iff_le_one_left hs2).mp (by linarith [h2] : (t / w) * (x1 - x0) ≤ x1 - x0)
        exact this
      exact (div_le_one hw).mp h3
    · intro h
      have h3 : t / w ≤ 1 := (div_le_one hw).mpr h
      nlinarith [h3, hs2]
  rw [e1, e2]

/-- In exact arithmetic the unrounded inverse mapper undoes toPixel whenever
the drawable width and height are nonzero. -/
lemma toLogicalRaw_toPixel (m : DifficultyLevel) (d : Dimensions) (p : Point)
    (hw : drawW d ≠ 0) (hh : drawH d ≠ 0) :
    toLogicalRaw (GAME_MODES m) d (toPixel (GAME_MODES m) d p) = p := by
  cases m <;>
    · refine Point.ext ?_ ?_ <;>
        · simp only [toLogicalRaw, toPixel, GAME_MODES]
          field_simp
          ring

/-- Equation of the click handler in the success case. -/
lemma handleCanvasClick_pos (s : GameState) (c : Point)
    (h : (c.x - s.target.x) * (c.x - s.target.x) + (c.y - s.target.y) * (c.y - s.target.y) ≤
      (GAME_MODES s.mode).tolerance * (GAME_MODES s.mode).tolerance) :
    handleCanvasClick s c =
      { s with
        score := s.score + 1
        progress := fun m => if m = s.mode then s.progress s.mode + 1 else s.progress m
        feedback := Feedback.successHit
        lastResult := some { success := true, clickPos := s.target }
        pendingTimers :=
          s.pendingTimers ++ [{ delayMs := 1500, capturedConfig := GAME_MODES s.mode }] } := by
  simp only [handleCanvasClick]
  rw [if_pos h]

/-- Equation of the click handler in the failure case. -/
lemma handleCanvasClick_neg (s : GameState) (c : Point)
    (h : ¬ ((c.x - s.target.x) * (c.x - s.target.x) + (c.y - s.target.y) * (c.y - s.target.y) ≤
      (GAME_MODES s.mode).tolerance * (GAME_MODES s.mode).tolerance)) :
    handleCanvasClick s c =
      { s with
        feedback := Feedback.miss (mathRound c.x) (mathRound c.y)
        lastResult := some { success := false, clickPos := c } } := by
  simp only [handleCanvasClick]
  rw [if_neg h]

/-- The unrounded inverse of the pixel of a concrete fractional point:
toPixel sends (1/2, 5) of the Intro mode on a 600 x 600 canvas to pixel
(66, 534), and the unrounded inverse of pixel (66, 300) is (1/2, 5). -/
lemma toLogicalRaw_intro_eval :
    toLogicalRaw (GAME_MODES DifficultyLevel.Intro) { width := 600, height := 600 }
      { x := 66, y := 300 } = { x := 1 / 2, y := 5 } := by
  refine Point.ext ?_ ?_ <;>
    norm_num [toLogicalRaw, GAME_MODES, drawW, drawH, padding]

/-- Every coordinate getRandomCoord returns for a random sample in the unit
interval is min + k * step for an integer k between 0 and
floor((max - min) / step). -/
lemma getRandomCoord_spec (min max step r : ℚ) (hstep : 0 < step) (hle : min ≤ max)
    (hr0 : 0 ≤ r) (hr1 : r < 1) :
    ∃ k : ℤ, 0 ≤ k ∧ k ≤ ⌊(max - min) / step⌋ ∧
      getRandomCoord min max step r = min + (k : ℚ) * step := by
  set steps : ℤ := ⌊(max - min) / step⌋ with hsteps
  have hsteps0 : 0 ≤ steps := Int.floor_nonneg.mpr (div_nonneg (by linarith) hstep.le)
  have hpos : (0 : ℚ) < (steps : ℚ) + 1 := by
    have : (0 : ℚ) ≤ (steps : ℚ) := by exact_mod_cast hsteps0
    linarith
  refine ⟨⌊r * ((steps : ℚ) + 1)⌋, ?_, ?_, rfl⟩
  · exact Int.floor_nonneg.mpr (mul_nonneg hr0 hpos.le)
  · have hlt : r * ((steps : ℚ) + 1) < (steps : ℚ) + 1 := by
      nlinarith
    have := Int.floor_lt.mpr (by push_cast; linarith : r * ((steps : ℚ) + 1) < ((steps + 1 : ℤ) : ℚ))
    omega

/-! Claim theorems. -/

/-- C1. The claim asserts the logical click point delivered to click
evaluation is exact and unrounded. The code contradicts it (and the comment
at its own call site): toLogical applies Math.round to both coordinates
before handleClick passes the point on. Concretely, in the Intro mode on a
600 x 600 canvas, a pointer click at pixel (66, 300) has the exact logical
position (1/2, 5), but the point delivered to the click handler is (1, 5). -/
theorem click_point_is_rounded :
    handleClick (GAME_MODES DifficultyLevel.Intro) { width := 600, height := 600 }
        { x := 66, y := 300 } = { x := 1, y := 5 } ∧
    toLogicalRaw (GAME_MODES DifficultyLevel.Intro) { width := 600, height := 600 }
        { x := 66, y := 300 } = { x := 1 / 2, y := 5 } ∧
    handleClick (GAME_MODES DifficultyLevel.Intro) { width := 600, height := 600 }
        { x := 66, y := 300 } ≠
      toLogicalRaw (GAME_MODES DifficultyLevel.Intro) { width := 600, height := 600 }
        { x := 66, y := 300 } := by
  have h1 : mathRound (1 / 2 : ℚ) = 1 := mathRound_eq _ 1 (by norm_num) (by norm_num)
  have h5 : mathRound (5 : ℚ) = 5 := mathRound_eq _ 5 (by norm_num) (by norm_num)
  have hmain : handleClick (GAME_MODES DifficultyLevel.Intro) { width := 600, height := 600 }
      { x := 66, y := 300 } = { x := 1, y := 5 } := by
    simp only [handleClick, toLogical, toLogicalRaw_intro_eval, h1, h5]
    norm_num
  refine ⟨hmain, toLogicalRaw_intro_eval, ?_⟩
  rw [hmain, toLogicalRaw_intro_eval]
  intro h
  have := congrArg Point.x h
  norm_num at this

/-- C2, amended. Because toLogical rounds both coordinates to the nearest
integer, the round trip toLogical(toPixel(p)) equals the componentwise
Math.round of p (exactly, in ideal arithmetic) for every logical point in
range and every viewport whose drawable area is positive; in particular it
equals p itself whenever both coordinates of p are integers. The claim as
frozen (within 0.01 for every in-range p) fails for fractional points; see
the counterexample. -/
theorem mapper_round_trip (m : DifficultyLevel) (d : Dimensions) (p : Point)
    (_hx1 : (GAME_MODES m).xRange.1 ≤ p.x) (_hx2 : p.x ≤ (GAME_MODES m).xRange.2)
    (_hy1 : (GAME_MODES m).yRange.1 ≤ p.y) (_hy2 : p.y ≤ (GAME_MODES m).yRange.2)
    (hw : 80 < d.width) (hh : 80 < d.height) :
    toLogical (GAME_MODES m) d (toPixel (GAME_MODES m) d p) =
      { x := (mathRound p.x : ℚ), y := (mathRound p.y : ℚ) } ∧
    (∀ nx ny : ℤ, p.x = (nx : ℚ) → p.y = (ny : ℚ) →
      toLogical (GAME_MODES m) d (toPixel (GAME_MODES m) d p) = p) := by
  have hW : drawW d ≠ 0 := by
    have : 0 < drawW d := by simp only [drawW, padding]; linarith
    exact this.ne'
  have hH : drawH d ≠ 0 := by
    have : 0 < drawH d := by simp only [drawH, padding]; linarith
    exact this.ne'
  have hraw := toLogicalRaw_toPixel m d p hW hH
  constructor
  · simp only [toLogical, hraw]
  · intro nx ny hnx hny
    simp only [toLogical, hraw, hnx, hny, mathRound_intCast]
    exact Point.ext hnx.symm hny.symm

/-- C2, counterexample to the claim as frozen: the in-range fractional
point (1/2, 1/2) of the Intro mode on a 600 x 600 viewport round-trips to
(1, 1), an error of 1/2 in the x coordinate, far above the 0.01 tolerance. -/
theorem mapper_round_trip_ce :
    ((GAME_MODES DifficultyLevel.Intro).xRange.1 ≤ (1 / 2 : ℚ) ∧
      (1 / 2 : ℚ) ≤ (GAME_MODES DifficultyLevel.Intro).xRange.2 ∧
      (GAME_MODES DifficultyLevel.Intro).yRange.1 ≤ (1 / 2 : ℚ) ∧
      (1 / 2 : ℚ) ≤ (GAME_MODES DifficultyLevel.Intro).yRange.2) ∧
    toLogical (GAME_MODES DifficultyLevel.Intro) { width := 600, height := 600 }
        (toPixel (GAME_MODES DifficultyLevel.Intro) { width := 600, height := 600 }
          { x := 1 / 2, y := 1 / 2 }) = { x := 1, y := 1 } ∧
    ¬ (|(toLogical (GAME_MODES DifficultyLevel.Intro) { width := 600, height := 600 }
          (toPixel (GAME_MODES DifficultyLevel.Intro) { width := 600, height := 600 }
            { x := 1 / 2, y := 1 / 2 })).x - 1 / 2| ≤ 1 / 100) := by
  have hraw := toLogicalRaw_toPixel DifficultyLevel.Intro { width := 600, height := 600 }
    { x := 1 / 2, y := 1 / 2 } (by norm_num [drawW, padding]) (by norm_num [drawH, padding])
  have h1 : mathRound (1 / 2 : ℚ) = 1 := mathRound_eq _ 1 (by norm_num) (by norm_num)
  have hround : toLogical (GAME_MODES DifficultyLevel.Intro) { width := 600, height := 600 }
      (toPixel (GAME_MODES DifficultyLevel.Intro) { width := 600, height := 600 }
        { x := 1 / 2, y := 1 / 2 }) = { x := 1, y := 1 } := by
    simp only [toLogical, hraw, h1]
    norm_num
  refine ⟨by norm_num [GAME_MODES], hround, ?_⟩
  rw [hround]
  norm_num [abs_of_pos]

/-- C2, witness: the integer in-range point (3, 5) of the Intro mode on a
600 x 600 viewport round-trips exactly. -/
theorem mapper_round_trip_witness :
    toLogical (GAME_MODES DifficultyLevel.Intro) { width := 600, height := 600 }
      (toPixel (GAME_MODES DifficultyLevel.Intro) { width := 600, height := 600 }
        { x := 3, y := 5 }) = { x := 3, y := 5 } :=
  (mapper_round_trip DifficultyLevel.Intro { width := 600, height := 600 } { x := 3, y := 5 }
    (by norm_num [GAME_MODES]) (by norm_num [GAME_MODES]) (by norm_num [GAME_MODES])
    (by norm_num [GAME_MODES]) (by norm_num) (by norm_num)).2 3 5 (by norm_num) (by norm_num)

/-- C3. The click handler succeeds exactly when the Euclidean distance from
the click to the target is at most the mode's tolerance (so distance equal
to the tolerance succeeds and any larger distance fails). On success it
increments the session score, increments the persisted count of the current
mode only, snaps lastResult to the target with success true, and schedules a
1500 ms timer whose callback regenerates the target and clears the result.
On failure it records lastResult at the actual click with success false,
writes the rounded click coordinates into the feedback, and changes neither
score nor progress nor the timer queue. -/
theorem click_evaluation (s : GameState) (c : Point) :
    (Real.sqrt (((c.x - s.target.x) * (c.x - s.target.x) +
          (c.y - s.target.y) * (c.y - s.target.y) : ℚ) : ℝ) ≤
        ((GAME_MODES s.mode).tolerance : ℝ) ↔
      (c.x - s.target.x) * (c.x - s.target.x) + (c.y - s.target.y) * (c.y - s.target.y) ≤
        (GAME_MODES s.mode).tolerance * (GAME_MODES s.mode).tolerance) ∧
    ((c.x - s.target.x) * (c.x - s.target.x) + (c.y - s.target.y) * (c.y - s.target.y) ≤
        (GAME_MODES s.mode).tolerance * (GAME_MODES s.mode).tolerance →
      (handleCanvasClick s c).score = s.score + 1 ∧
      (handleCanvasClick s c).progress s.mode = s.progress s.mode + 1 ∧
      (∀ m, m ≠ s.mode → (handleCanvasClick s c).progress m = s.progress m) ∧
      (handleCanvasClick s c).lastResult = some { success := true, clickPos := s.target } ∧
      (handleCanvasClick s c).pendingTimers =
        s.pendingTimers ++ [{ delayMs := 1500, capturedConfig := GAME_MODES s.mode }] ∧
      (∀ (s2 : GameState) (rx ry : ℚ),
        (fireTimer s2 { delayMs := 1500, capturedConfig := GAME_MODES s.mode } rx ry).target =
            generateNewTarget (GAME_MODES s.mode) rx ry ∧
        (fireTimer s2 { delayMs := 1500, capturedConfig := GAME_MODES s.mode } rx ry).lastResult =
            none)) ∧
    (¬ ((c.x - s.target.x) * (c.x - s.target.x) + (c.y - s.target.y) * (c.y - s.target.y) ≤
        (GAME_MODES s.mode).tolerance * (GAME_MODES s.mode).tolerance) →
      (handleCanvasClick s c).lastResult = some { success := false, clickPos := c } ∧
      (handleCanvasClick s c).feedback = Feedback.miss (mathRound c.x) (mathRound c.y) ∧
      (handleCanvasClick s c).score = s.score ∧
      (∀ m, (handleCanvasClick s c).progress m = s.progress m) ∧
      (handleCanvasClick s c).pendingTimers = s.pendingTimers) := by
  refine ⟨sqrt_le_tol_iff _ _ (tolerance_pos s.mode).le, ?_, ?_⟩
  · intro h
    rw [handleCanvasClick_pos s c h]
    refine ⟨rfl, by simp, ?_, rfl, rfl, fun s2 rx ry => ⟨rfl, rfl⟩⟩
    intro m hm
    simp [hm]
  · intro h
    rw [handleCanvasClick_neg s c h]
    exact ⟨rfl, rfl, rfl, fun m => rfl, rfl⟩

/-- C3, witness: in the initial Intro state (target (3, 5), tolerance 0.4),
a click exactly on the target succeeds, scores 1, snaps the marker to the
target, and increments the Intro progress count to 1. -/
theorem click_evaluation_witness :
    (handleCanvasClick demoState { x := 3, y := 5 }).score = 1 ∧
    (handleCanvasClick demoState { x := 3, y := 5 }).lastResult =
      some { success := true, clickPos := { x := 3, y := 5 } } ∧
    (handleCanvasClick demoState { x := 3, y := 5 }).progress DifficultyLevel.Intro = 1 := by
  have h := (click_evaluation demoState { x := 3, y := 5 }).2.1
    (by norm_num [demoState, initState, GAME_MODES])
  refine ⟨?_, ?_, ?_⟩
  · simpa [demoState, initState] using h.1
  · simpa [demoState, initState] using h.2.2.2.1
  · simpa [demoState, initState] using h.2.1

/-- C4. For any random sample r with 0 ≤ r < 1 (the contract of
Math.random), every coordinate getRandomCoord produces is min + k * step for
an integer k between 0 and floor((max - min) / step); in the Advanced tier
(range [-10, 10], step 1) every generated coordinate is therefore an integer
in [-10, 10]; and the target (0, 0) is reachable (samples rx = ry = 10/21
produce it). -/
theorem target_generation (lo hi step r : ℚ) (hstep : 0 < step) (hle : lo ≤ hi)
    (hr0 : 0 ≤ r) (hr1 : r < 1) :
    (∃ k : ℤ, 0 ≤ k ∧ k ≤ ⌊(hi - lo) / step⌋ ∧
      getRandomCoord lo hi step r = lo + (k : ℚ) * step) ∧
    (∃ k : ℤ, -10 ≤ k ∧ k ≤ 10 ∧
      getRandomCoord (GAME_MODES DifficultyLevel.Advanced).xRange.1
        (GAME_MODES DifficultyLevel.Advanced).xRange.2
        (GAME_MODES DifficultyLevel.Advanced).targetStep r = (k : ℚ)) ∧
    generateNewTarget (GAME_MODES DifficultyLevel.Advanced) (10 / 21) (10 / 21) =
      { x := 0, y := 0 } := by
  refine ⟨getRandomCoord_spec lo hi step r hstep hle hr0 hr1, ?_, ?_⟩
  · have hx : (GAME_MODES DifficultyLevel.Advanced).xRange.1 = -10 := by norm_num [GAME_MODES]
    have hx2 : (GAME_MODES DifficultyLevel.Advanced).xRange.2 = 10 := by norm_num [GAME_MODES]
    have hst : (GAME_MODES DifficultyLevel.Advanced).targetStep = 1 := by norm_num [GAME_MODES]
    obtain ⟨k, hk0, hk2, heq⟩ := getRandomCoord_spec (-10) 10 1 r (by norm_num) (by norm_num)
      hr0 hr1
    have hfl : ⌊((10 : ℚ) - -10) / 1⌋ = 20 := qfloor_eq _ 20 (by norm_num) (by norm_num)
    rw [hfl] at hk2
    refine ⟨-10 + k, by omega, by omega, ?_⟩
    rw [hx, hx2, hst, heq]
    push_cast
    ring
  · have h21 : ⌊((10 : ℚ) - -10) / 1⌋ = 20 := qfloor_eq _ 20 (by norm_num) (by norm_num)
    have hinner : ⌊(10 / 21 : ℚ) * ((((20 : ℤ) : ℚ)) + 1)⌋ = 10 :=
      qfloor_eq _ 10 (by norm_num) (by norm_num)
    refine Point.ext ?_ ?_ <;>
      · simp only [generateNewTarget, getRandomCoord, GAME_MODES]
        norm_num [h21, hinner]

/-- C4, witness: at range [0, 10], step 1, sample 1/2, the generated
coordinate is of the quantized form (it is 5 = 0 + 5 * 1). -/
theorem target_generation_witness :
    ∃ k : ℤ, 0 ≤ k ∧ k ≤ ⌊((10 : ℚ) - 0) / 1⌋ ∧
      getRandomCoord 0 10 1 (1 / 2) = 0 + (k : ℚ) * 1 :=
  (target_generation 0 10 1 (1 / 2) (by norm_num) (by norm_num) (by norm_num) (by norm_num)).1

/-- C5. Intro is always unlocked; a tier with a predecessor is locked
exactly when the predecessor's persisted count is below the threshold 20
(a count of 19 keeps it locked, 20 unlocks it); and a locked tier rejects a
mode-switch attempt, leaving the state untouched. -/
theorem unlock_gating :
    (∀ progress : DifficultyLevel → ℕ, getLockStatus progress DifficultyLevel.Intro = false) ∧
    (∀ (progress : DifficultyLevel → ℕ) (m p : DifficultyLevel), prevTier m = some p →
      (getLockStatus progress m = true ↔ progress p < UNLOCK_THRESHOLD)) ∧
    (∀ (progress : DifficultyLevel → ℕ) (m p : DifficultyLevel), prevTier m = some p →
      progress p = 19 → getLockStatus progress m = true) ∧
    (∀ (progress : DifficultyLevel → ℕ) (m p : DifficultyLevel), prevTier m = some p →
      progress p = 20 → getLockStatus progress m = false) ∧
    (∀ (s : GameState) (m : DifficultyLevel) (rx ry : ℚ),
      getLockStatus s.progress m = true → attemptModeSwitch s m rx ry = s) := by
  have key : ∀ (progress : DifficultyLevel → ℕ) (m p : DifficultyLevel), prevTier m = some p →
      (getLockStatus progress m = true ↔ progress p < UNLOCK_THRESHOLD) := by
    intro progress m p hp
    cases m <;> simp_all [prevTier, getLockStatus]
  refine ⟨fun progress => rfl, key, ?_, ?_, ?_⟩
  · intro progress m p hp h19
    exact (key progress m p hp).mpr (by simp [h19, UNLOCK_THRESHOLD])
  · intro progress m p hp h20
    have := (key progress m p hp).not
    simp only [Bool.not_eq_true] at this
    exact this.mpr (by simp [h20, UNLOCK_THRESHOLD])
  · intro s m rx ry hlock
    simp [attemptModeSwitch, hlock]

/-- C5, witness: with Intro progress 19 the Advanced tier is locked and a
switch attempt to it is rejected; with Intro progress 20 it is unlocked. -/
theorem unlock_gating_witness :
    getLockStatus (fun _ => 19) DifficultyLevel.Advanced = true ∧
    getLockStatus (fun _ => 20) DifficultyLevel.Advanced = false ∧
    attemptModeSwitch (initState fun _ => 19) DifficultyLevel.Advanced 0 0 =
      initState fun _ => 19 := by
  have h := unlock_gating
  refine ⟨h.2.2.1 (fun _ => 19) DifficultyLevel.Advanced DifficultyLevel.Intro rfl rfl,
    h.2.2.2.1 (fun _ => 20) DifficultyLevel.Advanced DifficultyLevel.Intro rfl rfl, ?_⟩
  exact h.2.2.2.2 (initState fun _ => 19) DifficultyLevel.Advanced 0 0
    (h.2.2.1 (fun _ => 19) DifficultyLevel.Advanced DifficultyLevel.Intro rfl rfl)

/-- C6, amended. No minimum container width is enforced in the code: the
resize handler passes the container clientWidth through unchanged, and the
drawable width and height used as divisors are strictly positive exactly
when the client width exceeds 80 px (Intro, square aspect) respectively
320/3 px (4:3 modes, where the height constraint binds); narrower viewports
reach zero or negative divisors. The claim as frozen (a reserved minimum
keeps the divisors positive for every reachable viewport) fails; see the
counterexample. -/
theorem min_width_reserved (id : DifficultyLevel) (w : ℚ) :
    (updateSize id w).width = w ∧
    (0 < drawW (updateSize id w) ∧ 0 < drawH (updateSize id w) ↔
      (if id = DifficultyLevel.Intro then (80 : ℚ) else 320 / 3) < w) := by
  cases id
  · refine ⟨rfl, ?_⟩
    simp [updateSize, drawW, drawH, padding]
    norm_num
  · refine ⟨rfl, ?_⟩
    simp [updateSize, drawW, drawH, padding]
    exact ⟨fun h => by linarith [h.1, h.2], fun h => ⟨by linarith, by linarith⟩⟩
  · refine ⟨rfl, ?_⟩
    simp [updateSize, drawW, drawH, padding]
    exact ⟨fun h => by linarith [h.1, h.2], fun h => ⟨by linarith, by linarith⟩⟩
  · refine ⟨rfl, ?_⟩
    simp [updateSize, drawW, drawH, padding]
    exact ⟨fun h => by linarith [h.1, h.2], fun h => ⟨by linarith, by linarith⟩⟩

/-- C6, counterexample: a resize to container clientWidth 80 in the Intro
mode is passed through unguarded and yields drawable width exactly 0, the
divisor of both mappers, refuting strict positivity for every reachable
viewport. -/
theorem min_width_reserved_ce :
    drawW (updateSize DifficultyLevel.Intro 80) = 0 ∧
    ¬ (0 < drawW (updateSize DifficultyLevel.Intro 80)) := by
  norm_num [updateSize, drawW, padding]

/-- C7, amended. The startup loader falls back to the all-zero mapping for
absent data and for data on which JSON.parse throws (no error surfaces, the
catch only logs), and the zero fallback is a well-formed progress mapping;
but a successfully parsed value of the wrong shape is returned as-is,
unvalidated, so the loaded progress is not always a mapping of each
difficulty id to a nonnegative integer. The equivalence asserted by the
frozen claim fails; see the counterexample. -/
theorem progress_load_fallback :
    loadProgress StoredData.absent = zeroProgress ∧
    loadProgress StoredData.unparseable = zeroProgress ∧
    isProgressMapping zeroProgress = true ∧
    (∀ v : Json, loadProgress (StoredData.parsed v) = v) := by
  refine ⟨rfl, rfl, ?_, fun v => rfl⟩
  simp [isProgressMapping, zeroProgress, lookupField, isNonNegInt]

/-- C7, counterexample: the stored string "null" parses successfully to the
JSON null value, which the loader returns unchanged instead of falling back
to the all-zero mapping; the loaded value maps no difficulty id to a count
at all. -/
theorem progress_load_fallback_ce :
    loadProgress (StoredData.parsed Json.null) = Json.null ∧
    loadProgress (StoredData.parsed Json.null) ≠ zeroProgress ∧
    isProgressMapping (loadProgress (StoredData.parsed Json.null)) = false := by
  refine ⟨rfl, ?_, rfl⟩
  intro h
  simp [loadProgress, zeroProgress] at h

/-- C9. The mode-change effect clears lastResult, resets the session score
to 0, regenerates the target from the new mode's config, resets the
feedback text, and leaves the persisted progress of every mode unchanged;
an unlocked mode-switch attempt runs exactly this effect. -/
theorem mode_switch_effects (s : GameState) (m : DifficultyLevel) (rx ry : ℚ) :
    (applyModeSwitch s m rx ry).lastResult = none ∧
    (applyModeSwitch s m rx ry).score = 0 ∧
    (applyModeSwitch s m rx ry).target = generateNewTarget (GAME_MODES m) rx ry ∧
    (applyModeSwitch s m rx ry).feedback = Feedback.newGame ∧
    (applyModeSwitch s m rx ry).mode = m ∧
    (∀ m2, (applyModeSwitch s m rx ry).progress m2 = s.progress m2) ∧
    (getLockStatus s.progress m = false →
      attemptModeSwitch s m rx ry = applyModeSwitch s m rx ry) := by
  refine ⟨rfl, rfl, rfl, rfl, rfl, fun m2 => rfl, ?_⟩
  intro h
  simp [attemptModeSwitch, h]

/-- C9, witness: switching the initial state to Intro (always unlocked)
runs the reset effect. -/
theorem mode_switch_effects_witness :
    attemptModeSwitch demoState DifficultyLevel.Intro 0 0 =
      applyModeSwitch demoState DifficultyLevel.Intro 0 0 :=
  (mode_switch_effects demoState DifficultyLevel.Intro 0 0).2.2.2.2.2.2 rfl

/-- A concrete Challenge-mode state (all tiers unlocked, target (10, 10),
no pending timers) used to exercise the post-success delay window. -/
def chalState : GameState :=
  { mode := DifficultyLevel.Challenge
    target := { x := 10, y := 10 }
    score := 0
    feedback := Feedback.initial
    lastResult := none
    progress := fun _ => 20
    pendingTimers := [] }

/-- C8. The code never cancels the success timer: a successful click in the
Challenge mode schedules the 1500 ms callback, a mode switch to Intro during
the delay leaves that callback pending, and when it then fires it still
runs — in the new mode — regenerating the target through the captured
Challenge config (yielding (-50, -50), outside the Intro range), clearing
the result, and overwriting the feedback. This exhibits exactly the
stale-target reset the claim says is prevented. -/
theorem stale_timer_fires :
    (handleCanvasClick chalState { x := 10, y := 10 }).pendingTimers =
      [{ delayMs := 1500, capturedConfig := GAME_MODES DifficultyLevel.Challenge }] ∧
    (attemptModeSwitch (handleCanvasClick chalState { x := 10, y := 10 })
        DifficultyLevel.Intro 0 0).pendingTimers =
      [{ delayMs := 1500, capturedConfig := GAME_MODES DifficultyLevel.Challenge }] ∧
    (attemptModeSwitch (handleCanvasClick chalState { x := 10, y := 10 })
        DifficultyLevel.Intro 0 0).mode = DifficultyLevel.Intro ∧
    (runNextTimer (attemptModeSwitch (handleCanvasClick chalState { x := 10, y := 10 })
        DifficultyLevel.Intro 0 0) 0 0).target = { x := -50, y := -50 } ∧
    (runNextTimer (attemptModeSwitch (handleCanvasClick chalState { x := 10, y := 10 })
        DifficultyLevel.Intro 0 0) 0 0).mode = DifficultyLevel.Intro ∧
    (runNextTimer (attemptModeSwitch (handleCanvasClick chalState { x := 10, y := 10 })
        DifficultyLevel.Intro 0 0) 0 0).feedback = Feedback.nextTarget ∧
    ¬ ((GAME_MODES DifficultyLevel.Intro).xRange.1 ≤
        (runNextTimer (attemptModeSwitch (handleCanvasClick chalState { x := 10, y := 10 })
          DifficultyLevel.Intro 0 0) 0 0).target.x) := by
  have hs1 := handleCanvasClick_pos chalState { x := 10, y := 10 }
    (by norm_num [chalState, GAME_MODES])
  rw [hs1]
  refine ⟨?_, ?_, ?_, ?_, ?_, ?_, ?_⟩ <;>
    simp [chalState, attemptModeSwitch, getLockStatus, applyModeSwitch, runNextTimer, fireTimer,
      generateNewTarget, getRandomCoord, GAME_MODES]

/-- C10, amended. toLogical performs no clamping, but it rounds: the
unrounded inverse lies within xRange x yRange exactly when the pixel lies in
the inset rectangle [40, width-40] x [40, height-40]; a pixel inside that
rectangle therefore always yields an in-range returned point, but the
converse direction of the claimed equivalence fails for the returned
(rounded) point, since pixels slightly inside the margin still round into
range (see the counterexample); and the click handler evaluates every
delivered point against the target by the same distance rule, with no
range filtering: each click either succeeds or records a miss at its
rounded coordinates. -/
theorem no_clamping (m : DifficultyLevel) (d : Dimensions) (p : Point)
    (hw : 80 < d.width) (hh : 80 < d.height) :
    (((GAME_MODES m).xRange.1 ≤ (toLogicalRaw (GAME_MODES m) d p).x ∧
        (toLogicalRaw (GAME_MODES m) d p).x ≤ (GAME_MODES m).xRange.2 ∧
        (GAME_MODES m).yRange.1 ≤ (toLogicalRaw (GAME_MODES m) d p).y ∧
        (toLogicalRaw (GAME_MODES m) d p).y ≤ (GAME_MODES m).yRange.2) ↔
      (40 ≤ p.x ∧ p.x ≤ d.width - 40 ∧ 40 ≤ p.y ∧ p.y ≤ d.height - 40)) ∧
    ((40 ≤ p.x ∧ p.x ≤ d.width - 40 ∧ 40 ≤ p.y ∧ p.y ≤ d.height - 40) →
      ((GAME_MODES m).xRange.1 ≤ (toLogical (GAME_MODES m) d p).x ∧
        (toLogical (GAME_MODES m) d p).x ≤ (GAME_MODES m).xRange.2 ∧
        (GAME_MODES m).yRange.1 ≤ (toLogical (GAME_MODES m) d p).y ∧
        (toLogical (GAME_MODES m) d p).y ≤ (GAME_MODES m).yRange.2)) ∧
    (∀ (s : GameState) (q : Point),
      ((handleCanvasClick s q).score = s.score + 1 ∧
        (handleCanvasClick s q).lastResult = some { success := true, clickPos := s.target }) ∨
      ((handleCanvasClick s q).feedback = Feedback.miss (mathRound q.x) (mathRound q.y) ∧
        (handleCanvasClick s q).lastResult = some { success := false, clickPos := q })) := by
  have hW : (0 : ℚ) < d.width - 40 * 2 := by linarith
  have hH : (0 : ℚ) < d.height - 40 * 2 := by linarith
  have hxspan : (GAME_MODES m).xRange.1 < (GAME_MODES m).xRange.2 := by
    cases m <;> norm_num [GAME_MODES]
  have hyspan : (GAME_MODES m).yRange.1 < (GAME_MODES m).yRange.2 := by
    cases m <;> norm_num [GAME_MODES]
  have hx := affine_inv_mem_iff (GAME_MODES m).xRange.1 (GAME_MODES m).xRange.2
    (d.width - 40 * 2) (p.x - 40) hxspan hW
  have hy := affine_inv_mem_iff (GAME_MODES m).yRange.1 (GAME_MODES m).yRange.2
    (d.height - 40 * 2) (d.height - 40 - p.y) hyspan hH
  have hiff : ((GAME_MODES m).xRange.1 ≤ (toLogicalRaw (GAME_MODES m) d p).x ∧
      (toLogicalRaw (GAME_MODES m) d p).x ≤ (GAME_MODES m).xRange.2 ∧
      (GAME_MODES m).yRange.1 ≤ (toLogicalRaw (GAME_MODES m) d p).y ∧
      (toLogicalRaw (GAME_MODES m) d p).y ≤ (GAME_MODES m).yRange.2) ↔
      (40 ≤ p.x ∧ p.x ≤ d.width - 40 ∧ 40 ≤ p.y ∧ p.y ≤ d.height - 40) := by
    simp only [toLogicalRaw, drawW, drawH, padding]
    constructor
    · rintro ⟨h1, h2, h3, h4⟩
      have hxr := hx.mp ⟨h1, h2⟩
      have hyr := hy.mp ⟨h3, h4⟩
      exact ⟨by linarith [hxr.1], by linarith [hxr.2], by linarith [hyr.2], by linarith [hyr.1]⟩
    · rintro ⟨g1, g2, g3, g4⟩
      have hxr := hx.mpr ⟨by linarith, by linarith⟩
      have hyr := hy.mpr ⟨by linarith, by linarith⟩
      exact ⟨hxr.1, hxr.2, hyr.1, hyr.2⟩
  have hint : ∃ a b c e : ℤ, ((a : ℚ) = (GAME_MODES m).xRange.1) ∧
      ((b : ℚ) = (GAME_MODES m).xRange.2) ∧ ((c : ℚ) = (GAME_MODES m).yRange.1) ∧
      ((e : ℚ) = (GAME_MODES m).yRange.2) := by
    cases m
    · exact ⟨0, 10, 0, 10, by norm_num [GAME_MODES], by norm_num [GAME_MODES],
        by norm_num [GAME_MODES], by norm_num [GAME_MODES]⟩
    · exact ⟨-10, 10, -10, 10, by norm_num [GAME_MODES], by norm_num [GAME_MODES],
        by norm_num [GAME_MODES], by norm_num [GAME_MODES]⟩
    · exact ⟨-50, 50, -50, 50, by norm_num [GAME_MODES], by norm_num [GAME_MODES],
        by norm_num [GAME_MODES], by norm_num [GAME_MODES]⟩
    · exact ⟨-240, 240, -180, 180, by norm_num [GAME_MODES], by norm_num [GAME_MODES],
        by norm_num [GAME_MODES], by norm_num [GAME_MODES]⟩
  refine ⟨hiff, ?_, ?_⟩
  · intro hrect
    obtain ⟨h1, h2, h3, h4⟩ := hiff.mpr hrect
    obtain ⟨a, b, c, e, ea, eb, ec, ee⟩ := hint
    simp only [toLogical]
    refine ⟨?_, ?_, ?_, ?_⟩
    · rw [← ea]
      exact (mathRound_mem a b _ (by rw [ea]; exact h1) (by rw [eb]; exact h2)).1
    · rw [← eb]
      exact (mathRound_mem a b _ (by rw [ea]; exact h1) (by rw [eb]; exact h2)).2
    · rw [← ec]
      exact (mathRound_mem c e _ (by rw [ec]; exact h3) (by rw [ee]; exact h4)).1
    · rw [← ee]
      exact (mathRound_mem c e _ (by rw [ec]; exact h3) (by rw [ee]; exact h4)).2
  · intro s q
    by_cases hc : (q.x - s.target.x) * (q.x - s.target.x) +
        (q.y - s.target.y) * (q.y - s.target.y) ≤
        (GAME_MODES s.mode).tolerance * (GAME_MODES s.mode).tolerance
    · left
      rw [handleCanvasClick_pos s q hc]
      exact ⟨rfl, rfl⟩
    · right
      rw [handleCanvasClick_neg s q hc]
      exact ⟨rfl, rfl⟩

/-- C10, counterexample to the claimed equivalence for the returned point:
in the Intro mode on a 600 x 600 canvas, the pixel (39, 300) lies in the
40 px margin (outside the inset rectangle), yet toLogical returns (0, 5),
which is inside xRange x yRange — because the unrounded inverse
(-1/52, 5) is rounded into range. -/
theorem no_clamping_ce :
    (GAME_MODES DifficultyLevel.Intro).xRange.1 ≤
        (toLogical (GAME_MODES DifficultyLevel.Intro) { width := 600, height := 600 }
          { x := 39, y := 300 }).x ∧
    (toLogical (GAME_MODES DifficultyLevel.Intro) { width := 600, height := 600 }
        { x := 39, y := 300 }).x ≤ (GAME_MODES DifficultyLevel.Intro).xRange.2 ∧
    (GAME_MODES DifficultyLevel.Intro).yRange.1 ≤
        (toLogical (GAME_MODES DifficultyLevel.Intro) { width := 600, height := 600 }
          { x := 39, y := 300 }).y ∧
    (toLogical (GAME_MODES DifficultyLevel.Intro) { width := 600, height := 600 }
        { x := 39, y := 300 }).y ≤ (GAME_MODES DifficultyLevel.Intro).yRange.2 ∧
    ¬ ((40 : ℚ) ≤ ({ x := 39, y := 300 } : Point).x) := by
  have hraw : toLogicalRaw (GAME_MODES DifficultyLevel.Intro) { width := 600, height := 600 }
      { x := 39, y := 300 } = { x := -1 / 52, y := 5 } := by
    refine Point.ext ?_ ?_ <;> norm_num [toLogicalRaw, GAME_MODES, drawW, drawH, padding]
  have h0 : mathRound (-1 / 52 : ℚ) = 0 := mathRound_eq _ 0 (by norm_num) (by norm_num)
  have h5 : mathRound (5 : ℚ) = 5 := mathRound_eq _ 5 (by norm_num) (by norm_num)
  have ht : toLogical (GAME_MODES DifficultyLevel.Intro) { width := 600, height := 600 }
      { x := 39, y := 300 } = { x := 0, y := 5 } := by
    simp only [toLogical, hraw, h0, h5]
    norm_num
  rw [ht]
  norm_num [GAME_MODES]

/-- C10, witness: the in-rectangle pixel (100, 100) of a 600 x 600 Intro
canvas maps to a point within the configured range. -/
theorem no_clamping_witness :
    (GAME_MODES DifficultyLevel.Intro).xRange.1 ≤
        (toLogical (GAME_MODES DifficultyLevel.Intro) { width := 600, height := 600 }
          { x := 100, y := 100 }).x ∧
    (toLogical (GAME_MODES DifficultyLevel.Intro) { width := 600, height := 600 }
        { x := 100, y := 100 }).x ≤ (GAME_MODES DifficultyLevel.Intro).xRange.2 ∧
    (GAME_MODES DifficultyLevel.Intro).yRange.1 ≤
        (toLogical (GAME_MODES DifficultyLevel.Intro) { width := 600, height := 600 }
          { x := 100, y := 100 }).y ∧
    (toLogical (GAME_MODES DifficultyLevel.Intro) { width := 600, height := 600 }
        { x := 100, y := 100 }).y ≤ (GAME_MODES DifficultyLevel.Intro).yRange.2 :=
  (no_clamping DifficultyLevel.Intro { width := 600, height := 600 } { x := 100, y := 100 }
    (by norm_num) (by norm_num)).2.1 (by norm_num)

end CoordGame
